import Mathlib

/-
Verification development for the `ubu` runtime core: a shallow embedding of
the extension registry (`ubu/runtime/extensions.py`), the scoped-teardown
machinery (`ubu/injector/scopes.py`), the event queue's listener binding
(`ubu/runtime/event.py`) and the plugin loader (`ubu/runtime/plugin_loading.py`),
together with theorems settling the spec's claims about them.

Modelling conventions:
* Python `dict`s preserve insertion order, so they are embedded as ordered
  association lists `List (Nat × α)` with `dictLookup` / `dictSet`.
* Python object identity (`id(x)`) is modelled by an explicit `oid : Nat`
  field; UUIDs are modelled as `Nat`.
* Exceptions are modelled by returning the state mutated up to the raise
  point together with an `Option` error (Python exceptions do not roll back
  earlier in-place mutations).
* `log.warning` calls are modelled by a warning counter; callback
  invocations are modelled by an observable trace of `(callback id, value)`
  pairs appended in invocation order.
-/

set_option autoImplicit false

namespace Ubu

/-! ### Ordered dictionaries (Python `dict` with insertion order) -/

def dictLookup {α : Type} : List (Nat × α) → Nat → Option α
  | [], _ => none
  | (k, v) :: rest, key => if k = key then some v else dictLookup rest key

/-- Setting an existing key keeps its position; a new key is appended,
matching CPython dict semantics. -/
def dictSet {α : Type} : List (Nat × α) → Nat → α → List (Nat × α)
  | [], key, v => [(key, v)]
  | (k, w) :: rest, key, v =>
      if k = key then (k, v) :: rest else (k, w) :: dictSet rest key v

theorem dictLookup_dictSet_self {α : Type} (d : List (Nat × α)) (k : Nat) (v : α) :
    dictLookup (dictSet d k v) k = some v := by
  induction d with
  | nil => simp [dictSet, dictLookup]
  | cons hd tl ih =>
      obtain ⟨k0, v0⟩ := hd
      by_cases h : k0 = k
      · simp [dictSet, dictLookup, h]
      · simp [dictSet, dictLookup, h, ih]

theorem dictLookup_dictSet_ne {α : Type} (d : List (Nat × α)) (k k' : Nat) (v : α)
    (h : k' ≠ k) : dictLookup (dictSet d k v) k' = dictLookup d k' := by
  induction d with
  | nil => simp [dictSet, dictLookup, Ne.symm h]
  | cons hd tl ih =>
      obtain ⟨k0, v0⟩ := hd
      by_cases h0 : k0 = k
      · subst h0
        simp [dictSet, dictLookup, Ne.symm h]
      · by_cases h1 : k0 = k'
        · simp [dictSet, dictLookup, h0, h1, h]
        · simp [dictSet, dictLookup, h0, h1, ih]

/-! ### Objects and plugins

A Python object, as the registry sees it.  `oid` models `id(obj)`;
`name` models the display name the `Extension.name` property resolves
(`obj.name` / `obj.__name__` / type name); `endpointAttr` models the
optional `__endpoint__` affinity attribute (empty list = absent);
`classes` is the set of class ids the object is an instance of, and
`klassAncestors` the ancestor set of `obj.klass` when the object is a
`WrappedClass` (`isWrapped` true, `klassId` = `id(obj.klass)`). -/

structure Obj where
  oid : Nat
  name : String
  hasTeardown : Bool
  teardownRaises : Bool
  endpointAttr : List Nat
  classes : List Nat
  isWrapped : Bool
  klassId : Nat
  klassAncestors : List Nat
deriving Repr, DecidableEq

/-- A plain (non-wrapped, teardown-free, affinity-free) object. -/
def mkObj (oid : Nat) (name : String) : Obj :=
  { oid := oid, name := name, hasTeardown := false, teardownRaises := false
    endpointAttr := [], classes := [], isWrapped := false, klassId := 0
    klassAncestors := [] }

/-- `PluginBase` instance as the registry sees it: an identity plus the
`pack_uuid` property (delegating to the owning Pack's uuid). -/
structure Plugin where
  pid : Nat
  pack_uuid : Nat
deriving Repr, DecidableEq

/-- `isinstance(x, C)` for a class id `c`. -/
def isinstance (x : Obj) (c : Nat) : Bool := c ∈ x.classes

/-- `issubclass(x.klass, W)` for a wrapped object `x` and class id `w`. -/
def wrappedIssubclass (x : Obj) (w : Nat) : Bool := w ∈ x.klassAncestors

/-! ### Endpoint (`extensions.py` lines 26-57) -/

structure EndpointInfo where
  name : String
  description : String
  uuid : Nat
  include_condition : Option (Obj → Bool)
  instance_class : Option Nat
  wrapped_subclass : Option Nat
  builtins : List Obj

/-- An endpoint field record with no inclusion policy and no builtins. -/
def mkEndpointFields (name : String) (uuid : Nat) : EndpointInfo :=
  { name := name, description := "", uuid := uuid, include_condition := none
    instance_class := none, wrapped_subclass := none, builtins := [] }

/-- Embeds `Endpoint.__attrs_post_init__`: when no explicit
`include_condition` was given, derive it from `instance_class`, else from
`wrapped_subclass`, else accept everything. -/
def attrs_post_init (e : EndpointInfo) : EndpointInfo :=
  match e.include_condition with
  | some _ => e
  | none =>
      match e.instance_class with
      | some c => { e with include_condition := some (fun x => isinstance x c) }
      | none =>
          match e.wrapped_subclass with
          | some w =>
              { e with include_condition := some (fun x => wrappedIssubclass x w) }
          | none => { e with include_condition := some (fun _ => true) }

/-! ### Extension and per-endpoint storage (`extensions.py` lines 60-148) -/

structure Extension where
  endpoint_uuid : Nat
  obj : Obj
  plugin : Plugin
  from_plugin : Bool
deriving Repr, DecidableEq

/-- The `Extension.name` property (display name of the extension object). -/
def extName (ext : Extension) : String := ext.obj.name

/-- `id(extension.obj.klass)` for a `WrappedClass`, else `id(extension.obj)`
(`_EndpointStorage.add_extension` lines 137-140). -/
def extObjId (o : Obj) : Nat := if o.isWrapped then o.klassId else o.oid

structure EndpointStorage where
  info : EndpointInfo
  extensions : List Extension
  extension_objects_list : List Obj
  extension_objects_dict : List (String × Obj)
  obj_ids : List Nat

def mkEndpointStorage (info : EndpointInfo) : EndpointStorage :=
  { info := info, extensions := [], extension_objects_list := []
    extension_objects_dict := [], obj_ids := [] }

inductive ExtErr where
  /-- `ValueError` from `add_extension`: no endpoint with this UUID registered. -/
  | unknownEndpoint (uuid : Nat)
  /-- `RuntimeError` from `_EndpointStorage.add_extension`: duplicate object id. -/
  | duplicateExtension (uuid : Nat) (objId : Nat)
deriving Repr, DecidableEq

/-- String-keyed dict set, for `extension_objects_dict`. -/
def sdictSet {α : Type} : List (String × α) → String → α → List (String × α)
  | [], key, v => [(key, v)]
  | (k, w) :: rest, key, v =>
      if k = key then (k, v) :: rest else (k, w) :: sdictSet rest key v

/-- Embeds `_EndpointStorage.add_extension` (lines 136-148): reject a
duplicate object identity for this endpoint, otherwise append to the
ordered extension list, object list and name-keyed dict. -/
def storageAddExtension (st : EndpointStorage) (ext : Extension) :
    Except ExtErr EndpointStorage :=
  let obj_id := extObjId ext.obj
  if obj_id ∈ st.obj_ids then
    .error (.duplicateExtension st.info.uuid obj_id)
  else
    .ok { st with
          obj_ids := st.obj_ids ++ [obj_id]
          extensions := st.extensions ++ [ext]
          extension_objects_list := st.extension_objects_list ++ [ext.obj]
          extension_objects_dict := sdictSet st.extension_objects_dict (extName ext) ext.obj }

/-! ### The `Extensions` registry (`extensions.py` lines 151-357)

The event queue is embedded as the part of it the registry uses: the list
of `EXTENSION_REGISTERED` listeners installed by `subscribe` (each one the
`wrapper` closure, which filters by the captured endpoint uuid) and the
observable trace of callback invocations. -/

/-- The `wrapper` closure installed by `Extensions.subscribe`, as data:
the captured endpoint uuid to filter on, the wrapped callback's identity,
the `just_the_object` flag and the listener handle. -/
structure Listener where
  endpoint_uuid : Nat
  cb : Nat
  just_the_object : Bool
  handle : Nat
deriving Repr, DecidableEq

structure ExtState where
  endpoints : List (Nat × EndpointStorage)
  subscription_handles : List Nat
  teardown_objs : List (Nat × Obj)
  builtin_extensions : List (Obj × List Nat)
  builtin_has_init : Bool
  listeners : List Listener
  calls : List (Nat × Extension)
  warnings : Nat
  handle_counter : Nat

/-- A fresh registry (`Extensions.__init__` with `make_app_endpoints()`
returning the empty list, as in the source). -/
def initialExtState : ExtState :=
  { endpoints := [], subscription_handles := [], teardown_objs := []
    builtin_extensions := [], builtin_has_init := false, listeners := []
    calls := [], warnings := 0, handle_counter := 0 }

/-- `from ubu.constants import BUILTIN_PLUGIN_UUID`: an opaque constant
(the `ubu.constants` module is not part of the analysed sources; only the
guard comparing against it matters, never its value). -/
def BUILTIN_PLUGIN_UUID : Nat := 0

/-- The extension list stored for endpoint `u` (empty when `u` is not a
registered endpoint). -/
def extensionsAt (s : ExtState) (u : Nat) : List Extension :=
  match dictLookup s.endpoints u with
  | some st => st.extensions
  | none => []

/-- The callback invocations one `EXTENSION_REGISTERED` dispatch produces:
each installed `wrapper` with a matching captured endpoint uuid forwards
the extension to its callback (`subscribe`'s `wrapper`, lines 320-327). -/
def callsFor (ls : List Listener) (u : Nat) (ext : Extension) :
    List (Nat × Extension) :=
  (ls.filter fun l => l.endpoint_uuid == u).map fun l => (l.cb, ext)

/-- `eq.dispatch(Event.EXTENSION_REGISTERED, uuid, extension)`: invoke the
installed wrapper listeners synchronously, in registration order. -/
def dispatchExtensionRegistered (s : ExtState) (u : Nat) (ext : Extension) :
    ExtState :=
  { s with calls := s.calls ++ callsFor s.listeners u ext }

/-- Embeds `add_extension` lines 225-231: a teardown-capable object is
recorded in `_teardown_objs` (keyed by `id(obj)`) before any endpoint
validation; a second registration of the same identity only warns. -/
def trackTeardown (s : ExtState) (obj : Obj) : ExtState :=
  if obj.hasTeardown then
    if (dictLookup s.teardown_objs obj.oid).isSome then
      { s with warnings := s.warnings + 1 }
    else
      { s with teardown_objs := s.teardown_objs ++ [(obj.oid, obj)] }
  else s

/-- Embeds `Extensions._find_object_endpoints` (lines 201-212): the union
of the explicit hint uuids and the object's `__endpoint__` affinity.  The
source builds a Python `set`, whose iteration order is unspecified; the
embedding fixes first-occurrence order as the model's iteration order. -/
def find_object_endpoints (obj : Obj) (uuids : List Nat) : List Nat :=
  (uuids ++ obj.endpointAttr).dedup

/-- `include_condition and include_condition(obj)` (line 242): a `None`
condition is falsy, otherwise the predicate decides. -/
def includeTest (st : EndpointStorage) (obj : Obj) : Bool :=
  match st.info.include_condition with
  | some f => f obj
  | none => false

/-- The `for endpoint_uuid in endpoints_to_check` loop of `add_extension`
(lines 236-251), with the Python exception modelled as the state at the
raise point plus the error.  Returns (state, raised error, `found_endpoint`). -/
def addExtLoop (p : Plugin) (obj : Obj) (delayed : Bool) :
    List Nat → ExtState → Bool → ExtState × Option ExtErr × Bool
  | [], s, found => (s, none, found)
  | u :: rest, s, found =>
      match dictLookup s.endpoints u with
      | none => (s, some (.unknownEndpoint u), found)
      | some st =>
          if includeTest st obj then
            let ext : Extension :=
              { endpoint_uuid := u, obj := obj, plugin := p, from_plugin := !delayed }
            match storageAddExtension st ext with
            | .error e => (s, some e, found)
            | .ok st' =>
                let s1 : ExtState := { s with endpoints := dictSet s.endpoints u st' }
                let s2 := dispatchExtensionRegistered s1 u ext
                addExtLoop p obj delayed rest s2 true
          else
            addExtLoop p obj delayed rest s found

/-- Embeds `Extensions.add_extension` (lines 214-254).  The
`injector.get` resolution of type arguments is outside the model: callers
pass object instances.  `delayed` is the `_delayed_builtin` keyword. -/
def add_extension (s : ExtState) (p : Plugin) (obj : Obj) (uuids : List Nat)
    (delayed : Bool) : ExtState × Option ExtErr :=
  let s1 := trackTeardown s obj
  match addExtLoop p obj delayed (find_object_endpoints obj uuids) s1 false with
  | (s2, some e, _) => (s2, some e)
  | (s2, none, found) =>
      if found then (s2, none) else ({ s2 with warnings := s2.warnings + 1 }, none)

/-- `eq.appendListener(Event.EXTENSION_REGISTERED, wrapper)` plus
`self._subscription_handles.append(handle)` (lines 329-330). -/
def installListener (s : ExtState) (endpoint cb : Nat) (just : Bool) : ExtState :=
  let h := s.handle_counter
  { s with
    listeners := s.listeners ++
      [{ endpoint_uuid := endpoint, cb := cb, just_the_object := just, handle := h }]
    subscription_handles := s.subscription_handles ++ [h]
    handle_counter := h + 1 }

inductive SubErr where
  /-- `RuntimeError`: endpoint already has extensions and
  `call_with_existing` is false (lines 310-313). -/
  | endpointHasExtensions (uuid : Nat)
deriving Repr, DecidableEq

/-- Embeds `Extensions.subscribe` (lines 291-330) for a uuid argument
(the `isinstance(endpoint, type)` resolution path is exercised by no
claim): deliver existing extensions synchronously when asked to, then
install the filtering wrapper on the live bus.  Callback invocations are
recorded in the `calls` trace as (callback, extension) in invocation
order; `just_the_object` only selects the argument shape passed to the
callback and is carried on the listener. -/
def subscribe (s : ExtState) (endpoint cb : Nat) (just call_with_existing : Bool) :
    ExtState × Option SubErr :=
  match dictLookup s.endpoints endpoint with
  | some st =>
      if 0 < st.extensions.length then
        if call_with_existing then
          let s1 : ExtState :=
            { s with calls := s.calls ++ st.extensions.map fun e => (cb, e) }
          (installListener s1 endpoint cb just, none)
        else
          (s, some (.endpointHasExtensions endpoint))
      else (installListener s endpoint cb just, none)
  | none => (installListener s endpoint cb just, none)

inductive InitErr where
  /-- `RuntimeError('Builtin plugin has the wrong UUID somehow')`: raised
  when `builtin_plugin.pack_uuid == BUILTIN_PLUGIN_UUID` (line 257). -/
  | wrongUuid
  /-- `RuntimeError('Builtin extensions have already been initialized')`. -/
  | alreadyInitialized
  /-- `RuntimeError('Cannot add builtin extensions after builtin plugin has init.')`. -/
  | cannotAddAfterInit
  /-- An error propagated from `add_extension`. -/
  | ext (e : ExtErr)
deriving Repr, DecidableEq

/-- Embeds `Extensions.add_builtin_extension` (lines 190-199). -/
def add_builtin_extension (s : ExtState) (obj : Obj) (uuids : List Nat) :
    ExtState × Option InitErr :=
  if s.builtin_has_init then (s, some .cannotAddAfterInit)
  else ({ s with builtin_extensions := s.builtin_extensions ++ [(obj, uuids)] }, none)

/-- The `for obj, endpoint_uuid in self._builtin_extensions` loop of
`init_builtin_extensions` (lines 261-267). -/
def foldBuiltins (p : Plugin) :
    List (Obj × List Nat) → ExtState → ExtState × Option ExtErr
  | [], s => (s, none)
  | (obj, uuids) :: rest, s =>
      match add_extension s p obj uuids true with
      | (s1, none) => foldBuiltins p rest s1
      | (s1, some e) => (s1, some e)

/-- Embeds `Extensions.init_builtin_extensions` (lines 256-268). -/
def init_builtin_extensions (s : ExtState) (p : Plugin) : ExtState × Option InitErr :=
  if p.pack_uuid == BUILTIN_PLUGIN_UUID then (s, some .wrongUuid)
  else if s.builtin_has_init then (s, some .alreadyInitialized)
  else
    match foldBuiltins p s.builtin_extensions s with
    | (s1, none) => ({ s1 with builtin_has_init := true }, none)
    | (s1, some e) => (s1, some (.ext e))

inductive EndpointErr where
  | notAnEndpoint
  /-- `ValueError`: endpoint uuid already registered (line 185). -/
  | duplicateEndpoint (uuid : Nat)
  | initErr (e : InitErr)
deriving Repr, DecidableEq

/-- The `for builtin in endpoint.builtins()` loop of `add_endpoint`. -/
def foldEndpointBuiltins (uuid : Nat) :
    List Obj → ExtState → ExtState × Option InitErr
  | [], s => (s, none)
  | obj :: rest, s =>
      match add_builtin_extension s obj [uuid] with
      | (s1, none) => foldEndpointBuiltins uuid rest s1
      | (s1, some e) => (s1, some e)

/-- Embeds `Extensions.add_endpoint` (lines 180-188); the endpoint value
has already gone through `__attrs_post_init__` at construction. -/
def add_endpoint (s : ExtState) (e : EndpointInfo) : ExtState × Option EndpointErr :=
  let einfo := attrs_post_init e
  if (dictLookup s.endpoints einfo.uuid).isSome then
    (s, some (.duplicateEndpoint einfo.uuid))
  else
    let s1 : ExtState :=
      { s with endpoints := dictSet s.endpoints einfo.uuid (mkEndpointStorage einfo) }
    match foldEndpointBuiltins einfo.uuid einfo.builtins s1 with
    | (s2, none) => (s2, none)
    | (s2, some e2) => (s2, some (.initErr e2))

/-- The `for obj in reversed(self._teardown_objs.values())` loop of
`Extensions.teardown` (lines 174-178): every object's `teardown()` is
invoked; a raising hook is caught and logged (`log.exception`), never
aborting the loop.  Returns the trace of invoked object ids and the count
of caught exceptions. -/
def extensionsTeardownGo : List Obj → List Nat × Nat
  | [] => ([], 0)
  | o :: rest =>
      let r := extensionsTeardownGo rest
      (o.oid :: r.1, (if o.teardownRaises then 1 else 0) + r.2)

/-- Embeds the object-teardown half of `Extensions.teardown` (the listener
removal half only unsubscribes the installed handles). -/
def extensions_teardown (s : ExtState) : List Nat × Nat :=
  extensionsTeardownGo (s.teardown_objs.map Prod.snd).reverse

/-! ### Scope teardown (`injector/scopes.py` lines 17-30)

A scope's `_context` maps bound types to providers in creation
(insertion) order; an entry is modelled by whether its provider is an
`InstanceProvider`, whether the instance has a `teardown` attribute, and
whether calling that hook raises. -/

structure SInstance where
  iid : Nat
  isInstanceProvider : Bool
  hasTeardown : Bool
  teardownRaises : Bool
deriving Repr, DecidableEq

/-- The `for provider in reversed(self._context.values())` loop body of
`TeardownSingletonScope.teardown`: skip non-`InstanceProvider` providers,
invoke `instance.teardown()` when present.  There is no `try`/`except`
in the source, so a raising hook propagates and ends the loop.  Returns
the trace of instances whose hook was invoked (the raising one included)
and the id of the raising instance, if any. -/
def scopeTeardownGo : List SInstance → List Nat × Option Nat
  | [] => ([], none)
  | i :: rest =>
      if i.isInstanceProvider then
        if i.hasTeardown then
          if i.teardownRaises then ([i.iid], some i.iid)
          else
            let r := scopeTeardownGo rest
            (i.iid :: r.1, r.2)
        else scopeTeardownGo rest
      else scopeTeardownGo rest

/-- Embeds `TeardownSingletonScope.teardown` (lines 20-30): iterate the
context in reverse creation order. -/
def scope_teardown (ctx : List SInstance) : List Nat × Option Nat :=
  scopeTeardownGo ctx.reverse

/-! ### Event listener binding (`runtime/event.py` lines 15-44) -/

inductive Event where
  | EXTENSION_REGISTERED
  | PLUGIN_LOADED_ONE
  | PLUGIN_LOADED_ALL
  | FINISHED_STARTUP
  | JOB_START
  | JOB_STATUS
  | SETTINGS_CHANGE
  | DB_UPDATE
  | PACK_TREE_UPDATE
  | OBJECT_CHANGE
  | STATUS_POPUP
  | HIDEABLE_WARNING_POPUP
deriving Repr, DecidableEq

/-- `e.name.lower()` for each member of the `Event` enum. -/
def Event.lowerName : Event → String
  | .EXTENSION_REGISTERED => "extension_registered"
  | .PLUGIN_LOADED_ONE => "plugin_loaded_one"
  | .PLUGIN_LOADED_ALL => "plugin_loaded_all"
  | .FINISHED_STARTUP => "finished_startup"
  | .JOB_START => "job_start"
  | .JOB_STATUS => "job_status"
  | .SETTINGS_CHANGE => "settings_change"
  | .DB_UPDATE => "db_update"
  | .PACK_TREE_UPDATE => "pack_tree_update"
  | .OBJECT_CHANGE => "object_change"
  | .STATUS_POPUP => "status_popup"
  | .HIDEABLE_WARNING_POPUP => "hideable_warning_popup"

/-- `methodname = f'on_event_{e.name.lower()}'` (line 26). -/
def methodname (e : Event) : String := "on_event_" ++ e.lowerName

/-- The `for e in events_set` loop of `EventQueue.bind_listener`: look the
conventionally-named method up on the object (modelled by the object's
method-name list); a present method is appended with a fresh listener
handle, a missing one raises `MissingMethodError` immediately.  The handle
counter models `appendListener`'s returned opaque handles. -/
def bindGo (methods : List String) : List Event → Nat → Option (List (Event × Nat))
  | [], _ => some []
  | e :: rest, h =>
      if methodname e ∈ methods then
        match bindGo methods rest (h + 1) with
        | some hs => some ((e, h) :: hs)
        | none => none
      else none

/-- Embeds `EventQueue.bind_listener` (lines 21-40): `events_set =
set(events_list)` deduplicates the requested events (modelled by
`List.dedup`; Python set iteration order is unspecified and no claim
depends on it), then each distinct event is bound or the call fails with
`MissingMethodError` (`none`). -/
def bind_listener (methods : List String) (events_list : List Event) :
    Option (List (Event × Nat)) :=
  bindGo methods events_list.dedup 0

/-! ### Plugin loading (`runtime/plugin_loading.py`)

`sys.modules` is embedded as a qualified-name-keyed module table; running
a pack's entry file is embedded by the pack's `module_plugin` field: the
`__plugin__` attribute the executed module ends up with (`none` when the
module does not set one).  The submodule walking of `run_mod` only
triggers side effects outside this model. -/

structure PluginClass where
  /-- The pack uuid the plugin class answers (via its `__PACK__`). -/
  class_pack_uuid : Nat
  /-- Whether `issubclass(plugin_class, PluginBase)` holds. -/
  isPluginBaseSubclass : Bool
deriving Repr, DecidableEq

structure Module where
  plugin : Option PluginClass
deriving Repr, DecidableEq

structure PluginConfig where
  module_name : Option String
deriving Repr, DecidableEq

structure PackMd where
  name : String
  uuid : Nat
  is_plugin : Bool
  plugin : Option PluginConfig
deriving Repr, DecidableEq

structure Pack where
  md : PackMd
  /-- `pack.path`; `none` models an unset base path. -/
  path : Option String
  /-- Whether `base_path / '__init__.py'` exists on disk. -/
  entry_exists : Bool
  /-- The `__plugin__` attribute executing the entry file produces. -/
  module_plugin : Option PluginClass
deriving Repr, DecidableEq

inductive LoadErr where
  /-- `ValueError`: pack is not a plugin pack. -/
  | notPluginPack (pack_name : String)
  /-- `ValueError`: pack has no base_path set. -/
  | noBasePath (pack_name : String)
  /-- `ValueError`: pack has no plugin configuration set. -/
  | noPluginConfig (pack_name : String)
  /-- `ValueError`: pack has no plugin module_name set. -/
  | noModuleName (pack_name : String)
  /-- `FileNotFoundError`: plugin module not found on disk. -/
  | fileNotFound (pack_name : String)
  /-- `ValueError` from `is_already_loaded`: no valid `__plugin__`. -/
  | noValidPluginAttr (pack_name : String)
  /-- `ValueError` from `is_already_loaded`: already loaded, uuid check. -/
  | alreadyLoadedUuid (pack_name : String)
  /-- `ImportError`/`TypeError` from `run_mod`. -/
  | invalidPluginModule (pack_name : String)
deriving Repr, DecidableEq

structure LoadingProcess where
  pack_name : String
  pack_uuid : Nat
  mod_name : String
  qmod_name : String
deriving Repr, DecidableEq

/-- String-keyed lookup for the module table. -/
def sdictLookup {α : Type} : List (String × α) → String → Option α
  | [], _ => none
  | (k, v) :: rest, key => if k = key then some v else sdictLookup rest key

/-- Embeds `LoadingProcess.__init__` (lines 24-54): the VALIDATE stage. -/
def mkLoadingProcess (pack : Pack) : Except LoadErr LoadingProcess :=
  if !pack.md.is_plugin then .error (.notPluginPack pack.md.name)
  else
    match pack.path with
    | none => .error (.noBasePath pack.md.name)
    | some _ =>
        match pack.md.plugin with
        | none => .error (.noPluginConfig pack.md.name)
        | some cfg =>
            match cfg.module_name with
            | none => .error (.noModuleName pack.md.name)
            | some mn =>
                if !pack.entry_exists then .error (.fileNotFound pack.md.name)
                else
                  .ok { pack_name := pack.md.name, pack_uuid := pack.md.uuid
                        mod_name := mn, qmod_name := "ubuplugin." ++ mn }

/-- `getattr(installed_module, '__plugin__', None)` where, in the source,
`installed_module` is a `bool` (see `is_already_loaded` below): a Python
bool has no `__plugin__` attribute, so the default `None` is returned for
either value. -/
def boolGetattrPluginAttr (_installed_module : Bool) : Option PluginClass := none

/-- Embeds `LoadingProcess.is_already_loaded` (lines 56-68), faithfully to
two properties of the source text: (1) in
`if installed_module := sys.modules.get(self.qmod_name) is not None:` the
walrus operator has lower precedence than `is not`, so `installed_module`
is bound to the *boolean* `sys.modules.get(...) is not None`, not to the
module; (2) the subsequent `getattr(installed_module, '__plugin__', None)`
therefore probes a bool and always yields `None`.  The dead `plugin_class`
branch keeps the source's comparison direction: it raises when
`plugin_class.pack_uuid == self.pack_uuid`, i.e. when the uuids match,
although its error message speaks of a mismatch. -/
def is_already_loaded (modules : List (String × Module)) (lp : LoadingProcess) :
    Except LoadErr Bool :=
  let installed_module : Bool := (sdictLookup modules lp.qmod_name).isSome
  if installed_module then
    match boolGetattrPluginAttr installed_module with
    | none => .error (.noValidPluginAttr lp.pack_name)
    | some plugin_class =>
        if !plugin_class.isPluginBaseSubclass then
          .error (.noValidPluginAttr lp.pack_name)
        else if plugin_class.class_pack_uuid == lp.pack_uuid then
          .error (.alreadyLoadedUuid lp.pack_name)
        else .ok true
  else .ok false

structure LoadState where
  /-- `sys.modules`, restricted to the `ubuplugin.*` qualified names. -/
  modules : List (String × Module)
  /-- Uuids of packs announced through `PLUGIN_LOADED_ONE`, in dispatch order. -/
  loaded_events : List Nat

def initialLoadState : LoadState := { modules := [], loaded_events := [] }

/-- String-keyed dict set for the module table. -/
def moduleSet (d : List (String × Module)) (k : String) (v : Module) :
    List (String × Module) :=
  match d with
  | [] => [(k, v)]
  | (k0, w) :: rest => if k0 = k then (k0, v) :: rest else (k0, w) :: moduleSet rest k v

/-- Embeds `LoadingProcess.run_mod` (lines 70-106): the new module is bound
into `sys.modules` *before* its `__plugin__` is validated, so a failed
validation leaves the module entry behind; `issubclass(None, PluginBase)`
raising `TypeError` and an invalid subclass are both load errors. -/
def run_mod (st : LoadState) (pack : Pack) (lp : LoadingProcess) :
    LoadState × Except LoadErr PluginClass :=
  let m : Module := { plugin := pack.module_plugin }
  let st1 : LoadState := { st with modules := moduleSet st.modules lp.qmod_name m }
  match pack.module_plugin with
  | none => (st1, .error (.invalidPluginModule lp.pack_name))
  | some pc =>
      if pc.isPluginBaseSubclass then (st1, .ok pc)
      else (st1, .error (.invalidPluginModule lp.pack_name))

/-- Embeds `PluginLoader.load` (lines 116-132).  Instantiating the plugin
through the injector (which registers its pending extensions) is outside
this model; the announce step appends the pack uuid to the
`PLUGIN_LOADED_ONE` dispatch trace. -/
def load (st : LoadState) (pack : Pack) : LoadState × Option LoadErr :=
  match mkLoadingProcess pack with
  | .error e => (st, some e)
  | .ok lp =>
      match is_already_loaded st.modules lp with
      | .error e => (st, some e)
      | .ok true => (st, none)
      | .ok false =>
          match run_mod st pack lp with
          | (st1, .error e) => (st1, some e)
          | (st1, .ok _) =>
              ({ st1 with loaded_events := st1.loaded_events ++ [pack.md.uuid] }, none)

/-! ### Concrete fixtures used by witnesses and counterexamples -/

/-- An endpoint record with no policy fields, after `__attrs_post_init__`:
it accepts every candidate. -/
def acceptAllEndpoint (name : String) (uuid : Nat) : EndpointInfo :=
  attrs_post_init (mkEndpointFields name uuid)

def pluginA : Plugin := { pid := 1, pack_uuid := 5 }

def packA : Pack :=
  { md := { name := "alpha", uuid := 11, is_plugin := true
            plugin := some { module_name := some "alpha" } }
    path := some "packs-alpha", entry_exists := true
    module_plugin := some { class_pack_uuid := 11, isPluginBaseSubclass := true } }

/-! ### C1: loading the same pack twice -/

/-- C1.  The claim says a second `PluginLoader.load` of the same pack is a
silent idempotent no-op unless the already-present module claims a
different pack uuid.  The code disagrees: in `is_already_loaded` the
walrus expression binds `installed_module` to the boolean
`sys.modules.get(...) is not None`, so on a second load the
`getattr(installed_module, '__plugin__', None)` probes a bool, yields
`None`, and the call raises the "no valid __plugin__" `ValueError` —
never the silent skip (and never the uuid check, which is itself inverted
relative to its own error message).  This theorem evaluates the embedded
code at the failing input: the first load of `packA` succeeds and
dispatches exactly one `PLUGIN_LOADED_ONE`, the second load of the very
same pack raises. -/
theorem plugin_load_twice_raises :
    (load initialLoadState packA).2 = none
    ∧ (load initialLoadState packA).1.loaded_events = [11]
    ∧ (load (load initialLoadState packA).1 packA).2 =
        some (.noValidPluginAttr "alpha") := by
  refine ⟨rfl, rfl, rfl⟩

/-! ### C10: `add_extension` is not atomic on error -/

def obj10 : Obj :=
  { mkObj 7 "t" with hasTeardown := true }

def s10 : ExtState :=
  { initialExtState with
    endpoints := [(1, mkEndpointStorage (acceptAllEndpoint "E1" 1))] }

/-- C10.  `add_extension` records a teardown-capable object in
`_teardown_objs` before validating candidate endpoint uuids, and raises
`ValueError` lazily inside the loop: with candidate set {1, 99} where 99
is unregistered, the call raises an unknown-endpoint error, yet the
object stays tracked for teardown and the extension already stored on
endpoint 1 is not rolled back. -/
theorem add_extension_not_atomic :
    (add_extension s10 pluginA obj10 [1, 99] false).2 =
        some (.unknownEndpoint 99)
    ∧ dictLookup (add_extension s10 pluginA obj10 [1, 99] false).1.teardown_objs 7 =
        some obj10
    ∧ extensionsAt (add_extension s10 pluginA obj10 [1, 99] false).1 1 =
        [{ endpoint_uuid := 1, obj := obj10, plugin := pluginA, from_plugin := true }] := by
  refine ⟨by decide, by decide, by decide⟩

/-! ### C6: exactly one inclusion policy, first non-null wins -/

/-- C6.  After `Endpoint.__attrs_post_init__` exactly one inclusion policy
is active, chosen as the first non-null of: explicit predicate,
instance-of-class, wraps-a-subclass, accept-all; an endpoint given no
policy at all accepts every candidate. -/
theorem endpoint_policy_priority (e : EndpointInfo) :
    ((attrs_post_init e).include_condition).isSome
    ∧ (∀ f, e.include_condition = some f →
        (attrs_post_init e).include_condition = some f)
    ∧ (e.include_condition = none → ∀ c, e.instance_class = some c →
        (attrs_post_init e).include_condition = some (fun x => isinstance x c))
    ∧ (e.include_condition = none → e.instance_class = none →
        ∀ w, e.wrapped_subclass = some w →
        (attrs_post_init e).include_condition =
          some (fun x => wrappedIssubclass x w))
    ∧ (e.include_condition = none → e.instance_class = none →
        e.wrapped_subclass = none →
        ∃ g, (attrs_post_init e).include_condition = some g ∧ ∀ x, g x = true) := by
  cases hic : e.include_condition with
  | some f =>
      refine ⟨by simp [attrs_post_init, hic], ?_, ?_, ?_, ?_⟩
      · intro f' hf'
        obtain rfl : f = f' := by injection hf'
        simp [attrs_post_init, hic]
      · intro h
        exact absurd h (by simp)
      · intro h
        exact absurd h (by simp)
      · intro h
        exact absurd h (by simp)
  | none =>
      cases hinst : e.instance_class with
      | some c =>
          refine ⟨by simp [attrs_post_init, hic, hinst], ?_, ?_, ?_, ?_⟩
          · intro f' hf'
            exact absurd hf' (by simp)
          · intro _ c' hc'
            obtain rfl : c = c' := by injection hc'
            simp [attrs_post_init, hic, hinst]
          · intro _ h2
            exact absurd h2 (by simp)
          · intro _ h2
            exact absurd h2 (by simp)
      | none =>
          cases hw : e.wrapped_subclass with
          | some w =>
              refine ⟨by simp [attrs_post_init, hic, hinst, hw], ?_, ?_, ?_, ?_⟩
              · intro f' hf'
                exact absurd hf' (by simp)
              · intro _ c' hc'
                exact absurd hc' (by simp)
              · intro _ _ w' hw'
                obtain rfl : w = w' := by injection hw'
                simp [attrs_post_init, hic, hinst, hw]
              · intro _ _ h3
                exact absurd h3 (by simp)
          | none =>
              refine ⟨by simp [attrs_post_init, hic, hinst, hw], ?_, ?_, ?_, ?_⟩
              · intro f' hf'
                exact absurd hf' (by simp)
              · intro _ c' hc'
                exact absurd hc' (by simp)
              · intro _ _ w' hw'
                exact absurd hw' (by simp)
              · intro _ _ _
                exact ⟨fun _ => true, by simp [attrs_post_init, hic, hinst, hw]⟩

def e6 : EndpointInfo := mkEndpointFields "E6" 60

/-- C6 witness: an endpoint constructed with no policy fields resolves to
an accept-all predicate. -/
theorem endpoint_policy_priority_witness :
    ∃ g, (attrs_post_init e6).include_condition = some g ∧ ∀ x, g x = true :=
  (endpoint_policy_priority e6).2.2.2.2 rfl rfl rfl

/-! ### C9: `call_with_existing=False` on a non-empty endpoint raises -/

/-- C9.  On an endpoint that already has at least one registered
extension, `subscribe` with `call_with_existing` false raises
`RuntimeError` and installs no listener (the state is returned exactly as
it was); the false setting only succeeds on an endpoint holding no
extensions yet. -/
theorem subscribe_requires_call_with_existing (s : ExtState) (E cb : Nat)
    (just : Bool) :
    (∀ st, dictLookup s.endpoints E = some st → st.extensions ≠ [] →
      subscribe s E cb just false = (s, some (.endpointHasExtensions E)))
    ∧ (extensionsAt s E = [] → (subscribe s E cb just false).2 = none) := by
  constructor
  · intro st hst hne
    have hlen : 0 < st.extensions.length := List.length_pos.mpr hne
    simp [subscribe, hst, hlen]
  · intro hemp
    cases hst : dictLookup s.endpoints E with
    | none => simp [subscribe, hst]
    | some st =>
        have : st.extensions = [] := by
          simpa [extensionsAt, hst] using hemp
        simp [subscribe, hst, this]

def ext9 : Extension :=
  { endpoint_uuid := 1, obj := mkObj 3 "x", plugin := pluginA, from_plugin := true }

def st9 : EndpointStorage :=
  { mkEndpointStorage (acceptAllEndpoint "E1" 1) with
    extensions := [ext9]
    extension_objects_list := [mkObj 3 "x"]
    obj_ids := [3] }

def s9 : ExtState := { initialExtState with endpoints := [(1, st9)] }

/-- C9 witness: a concrete endpoint with one registered extension rejects
a `call_with_existing=False` subscription. -/
theorem subscribe_requires_call_with_existing_witness :
    subscribe s9 1 5 true false = (s9, some (.endpointHasExtensions 1)) :=
  (subscribe_requires_call_with_existing s9 1 5 true).1 st9 rfl (by decide)

/-! ### C2: subscribe delivers existing extensions then filters the bus -/

theorem callsFor_append (a b : List Listener) (u : Nat) (ext : Extension) :
    callsFor (a ++ b) u ext = callsFor a u ext ++ callsFor b u ext := by
  simp [callsFor, List.filter_append]

theorem callsFor_singleton (l : Listener) (u : Nat) (ext : Extension) :
    callsFor [l] u ext = if l.endpoint_uuid = u then [(l.cb, ext)] else [] := by
  by_cases h : l.endpoint_uuid = u <;> simp [callsFor, h]

/-- C2.  Subscribing with `call_with_existing` true to an endpoint whose
storage holds extensions `X1..Xn` invokes the callback once per
already-registered extension, in registration order, synchronously within
the call (the invocations are part of the returned state's trace); the
installed wrapper reacts to a later `EXTENSION_REGISTERED` dispatch
exactly when the dispatch is for the subscribed endpoint, contributing
nothing for every other endpoint. -/
theorem subscribe_delivers_then_filters (s : ExtState) (E cb : Nat) (just : Bool)
    (st : EndpointStorage) (h : dictLookup s.endpoints E = some st) :
    (subscribe s E cb just true).2 = none
    ∧ (subscribe s E cb just true).1.calls =
        s.calls ++ st.extensions.map (fun e => (cb, e))
    ∧ (subscribe s E cb just true).1.listeners =
        s.listeners ++
          [{ endpoint_uuid := E, cb := cb, just_the_object := just
             handle := s.handle_counter }]
    ∧ (∀ u ext,
        (dispatchExtensionRegistered (subscribe s E cb just true).1 u ext).calls =
          (subscribe s E cb just true).1.calls
            ++ callsFor s.listeners u ext
            ++ (if u = E then [(cb, ext)] else [])) := by
  have hmain :
      (subscribe s E cb just true).2 = none
      ∧ (subscribe s E cb just true).1.calls =
          s.calls ++ st.extensions.map (fun e => (cb, e))
      ∧ (subscribe s E cb just true).1.listeners =
          s.listeners ++
            [{ endpoint_uuid := E, cb := cb, just_the_object := just
               handle := s.handle_counter }] := by
    by_cases hlen : 0 < st.extensions.length
    · simp [subscribe, h, hlen, installListener]
    · have hnil : st.extensions = [] := by
        cases hx : st.extensions with
        | nil => rfl
        | cons a l => rw [hx] at hlen; simp at hlen
      simp [subscribe, h, hlen, installListener, hnil]
  refine ⟨hmain.1, hmain.2.1, hmain.2.2, ?_⟩
  intro u ext
  rw [dispatchExtensionRegistered]
  rw [hmain.2.2, callsFor_append, callsFor_singleton]
  by_cases hu : u = E
  · simp [hu, List.append_assoc]
  · have hEu : ¬E = u := fun hh => hu hh.symm
    simp [hu, hEu]

/-- C2 witness: subscribing to the concrete endpoint of `s9` delivers its
one existing extension to the callback before returning. -/
theorem subscribe_delivers_then_filters_witness :
    (subscribe s9 1 5 true true).1.calls =
      s9.calls ++ st9.extensions.map (fun e => (5, e)) :=
  (subscribe_delivers_then_filters s9 1 5 true st9 rfl).2.1

/-! ### C4: scope teardown order and error behavior -/

/-- The teardown-capable entries of a scope context, in the order the
`reversed(self._context.values())` loop visits them (reverse creation
order). -/
def scopeHooks (ctx : List SInstance) : List SInstance :=
  ctx.reverse.filter fun i => i.isInstanceProvider && i.hasTeardown

def ctx4 : List SInstance :=
  [{ iid := 1, isInstanceProvider := true, hasTeardown := true, teardownRaises := false },
   { iid := 2, isInstanceProvider := true, hasTeardown := true, teardownRaises := true }]

/-- C4 counterexample.  The claim says a raising hook is caught and
logged so every remaining hook still runs.  In
`TeardownSingletonScope.teardown` there is no `try`/`except`: with two
singletons whose hooks both exist and whose most recently created one
(iid 2, visited first) raises, the exception propagates out of `teardown`
and the hook of instance 1 is never invoked. -/
theorem scope_teardown_hook_error_propagates :
    (scope_teardown ctx4).2 = some 2 ∧ 1 ∉ (scope_teardown ctx4).1 := by
  refine ⟨by decide, by decide⟩

theorem scopeTeardownGo_no_raise (l : List SInstance)
    (h : ∀ i ∈ l.filter (fun i => i.isInstanceProvider && i.hasTeardown),
      i.teardownRaises = false) :
    scopeTeardownGo l =
      ((l.filter fun i => i.isInstanceProvider && i.hasTeardown).map SInstance.iid,
        none) := by
  induction l with
  | nil => simp [scopeTeardownGo]
  | cons i rest ih =>
      have hrest : ∀ j ∈ rest.filter (fun i => i.isInstanceProvider && i.hasTeardown),
          j.teardownRaises = false := by
        intro j hj
        apply h
        rw [List.mem_filter] at hj ⊢
        exact ⟨List.mem_cons_of_mem i hj.1, hj.2⟩
      by_cases hip : i.isInstanceProvider
      · by_cases htd : i.hasTeardown
        · have hr : i.teardownRaises = false := by
            apply h
            rw [List.mem_filter]
            exact ⟨List.mem_cons_self i rest, by simp [hip, htd]⟩
          simp [scopeTeardownGo, hip, htd, hr, ih hrest, List.filter_cons]
        · simp [scopeTeardownGo, hip, htd, ih hrest, List.filter_cons]
      · simp [scopeTeardownGo, hip, ih hrest, List.filter_cons]

theorem scopeTeardownGo_raise (l : List SInstance) (l1 : List SInstance)
    (b : SInstance) (l2 : List SInstance)
    (hfil : l.filter (fun i => i.isInstanceProvider && i.hasTeardown) = l1 ++ b :: l2)
    (h1 : ∀ i ∈ l1, i.teardownRaises = false) (hb : b.teardownRaises = true) :
    scopeTeardownGo l = (l1.map SInstance.iid ++ [b.iid], some b.iid) := by
  induction l generalizing l1 with
  | nil => simp at hfil
  | cons i rest ih =>
      by_cases hkeep : i.isInstanceProvider && i.hasTeardown
      · rw [List.filter_cons, if_pos hkeep] at hfil
        have hip : i.isInstanceProvider = true := by
          simpa using (Bool.and_elim_left hkeep)
        have htd : i.hasTeardown = true := by
          simpa using (Bool.and_elim_right hkeep)
        cases l1 with
        | nil =>
            obtain rfl : i = b := by
              simpa using congrArg (fun xs => xs.head?) hfil
            simp [scopeTeardownGo, hip, htd, hb]
        | cons j l1' =>
            obtain rfl : i = j := by
              simpa using congrArg (fun xs => xs.head?) hfil
            have hfil' : rest.filter (fun i => i.isInstanceProvider && i.hasTeardown)
                = l1' ++ b :: l2 := by
              simpa using congrArg (fun xs => xs.tail) hfil
            have hjr : i.teardownRaises = false := h1 i (by simp)
            have ih' := ih l1' hfil' (by intro j' hj'; exact h1 j' (by simp [hj']))
            simp [scopeTeardownGo, hip, htd, hjr, ih']
      · rw [List.filter_cons, if_neg hkeep] at hfil
        have ih' := ih l1 hfil h1
        by_cases hip : i.isInstanceProvider
        · have htd : i.hasTeardown = false := by
            cases h2 : i.hasTeardown with
            | false => rfl
            | true => rw [hip, h2] at hkeep; simp at hkeep
          simp [scopeTeardownGo, hip, htd, ih']
        · simp [scopeTeardownGo, hip, ih']

/-- C4 amended.  `TeardownSingletonScope.teardown` iterates the context in
reverse creation order, invoking the teardown hook of every
`InstanceProvider`-provided instance that has one; when no hook raises,
every hook runs, in that order.  But there is no per-instance catch: if a
hook raises, the exception propagates and the hooks of the instances
created earlier are not invoked.  (By contrast, the registry's own
`Extensions.teardown` catches and logs per object: its loop invokes every
tracked object's hook even when some of them raise.) -/
theorem scope_teardown_reverse_order_abort (ctx : List SInstance) :
    ((∀ i ∈ scopeHooks ctx, i.teardownRaises = false) →
      scope_teardown ctx = ((scopeHooks ctx).map SInstance.iid, none))
    ∧ (∀ l1 b l2, scopeHooks ctx = l1 ++ b :: l2 →
        (∀ i ∈ l1, i.teardownRaises = false) → b.teardownRaises = true →
        scope_teardown ctx = (l1.map SInstance.iid ++ [b.iid], some b.iid))
    ∧ (∀ objs : List Obj,
        extensionsTeardownGo objs =
          (objs.map Obj.oid, (objs.filter fun o => o.teardownRaises).length)) := by
  refine ⟨?_, ?_, ?_⟩
  · intro h
    exact scopeTeardownGo_no_raise ctx.reverse h
  · intro l1 b l2 hfil h1 hb
    exact scopeTeardownGo_raise ctx.reverse l1 b l2 hfil h1 hb
  · intro objs
    induction objs with
    | nil => simp [extensionsTeardownGo]
    | cons o rest ih =>
        by_cases hr : o.teardownRaises <;>
          simp [extensionsTeardownGo, ih, hr, List.filter_cons, Nat.add_comm]

/-- C4 witness: on a concrete two-instance context with no raising hook,
teardown invokes both hooks in reverse creation order and returns
normally. -/
theorem scope_teardown_reverse_order_abort_witness :
    scope_teardown
        [{ iid := 1, isInstanceProvider := true, hasTeardown := true
           teardownRaises := false },
         { iid := 2, isInstanceProvider := true, hasTeardown := true
           teardownRaises := false }] =
      ([2, 1], none) :=
  (scope_teardown_reverse_order_abort _).1 (by decide)

/-! ### C8: binding listeners by naming convention fails fast -/

theorem bindGo_none_iff (methods : List String) (l : List Event) (h0 : Nat) :
    bindGo methods l h0 = none ↔ ∃ e ∈ l, methodname e ∉ methods := by
  induction l generalizing h0 with
  | nil => simp [bindGo]
  | cons e rest ih =>
      by_cases hm : methodname e ∈ methods
      · cases hrec : bindGo methods rest (h0 + 1) with
        | none =>
            have : ∃ e ∈ rest, methodname e ∉ methods := (ih (h0 + 1)).mp hrec
            simp only [bindGo, if_pos hm, hrec]
            obtain ⟨e', he', hm'⟩ := this
            simp only [true_iff]
            exact ⟨e', List.mem_cons_of_mem e he', hm'⟩
        | some hs =>
            simp only [bindGo, if_pos hm, hrec]
            constructor
            · intro hcontra
              exact absurd hcontra (by simp)
            · intro hex
              obtain ⟨e', he', hm'⟩ := hex
              rcases List.mem_cons.mp he' with rfl | he''
              · exact absurd hm hm'
              · exact absurd ((ih (h0 + 1)).mpr ⟨e', he'', hm'⟩) (by simp [hrec])
      · simp only [bindGo, if_neg hm]
        constructor
        · intro _
          exact ⟨e, List.mem_cons_self e rest, hm⟩
        · intro _
          trivial

theorem bindGo_some_fst (methods : List String) (l : List Event) (h0 : Nat)
    (hs : List (Event × Nat)) (h : bindGo methods l h0 = some hs) :
    hs.map Prod.fst = l := by
  induction l generalizing h0 hs with
  | nil =>
      simp [bindGo] at h
      simp [← h]
  | cons e rest ih =>
      by_cases hm : methodname e ∈ methods
      · rw [bindGo, if_pos hm] at h
        cases hrec : bindGo methods rest (h0 + 1) with
        | none => rw [hrec] at h; exact absurd h (by simp)
        | some hs' =>
            rw [hrec] at h
            obtain rfl : (e, h0) :: hs' = hs := by injection h
            simp [ih (h0 + 1) hs' hrec]
      · rw [bindGo, if_neg hm] at h
        exact absurd h (by simp)

/-- C8.  `EventQueue.bind_listener` raises `MissingMethodError` at bind
time exactly when the object lacks the `on_event_<name>` method for at
least one requested event; when every method exists it returns one handle
per distinct requested event (the events list is deduplicated through
`set(events_list)`), so no missing-method error is left for dispatch
time. -/
theorem bind_listener_fail_fast (methods : List String) (events_list : List Event) :
    (bind_listener methods events_list = none ↔
      ∃ e ∈ events_list, methodname e ∉ methods)
    ∧ (∀ hs, bind_listener methods events_list = some hs →
        hs.map Prod.fst = events_list.dedup) := by
  constructor
  · rw [bind_listener, bindGo_none_iff]
    constructor
    · intro hex
      obtain ⟨e, he, hm⟩ := hex
      exact ⟨e, List.mem_dedup.mp he, hm⟩
    · intro hex
      obtain ⟨e, he, hm⟩ := hex
      exact ⟨e, List.mem_dedup.mpr he, hm⟩
  · intro hs h
    exact bindGo_some_fst methods events_list.dedup 0 hs h

/-- C8 witness: binding `JOB_START` (requested twice) on an object that
has `on_event_job_start` yields exactly one handle for the one distinct
event. -/
theorem bind_listener_fail_fast_witness :
    ([(Event.JOB_START, 0)] : List (Event × Nat)).map Prod.fst =
      ([Event.JOB_START, Event.JOB_START] : List Event).dedup :=
  (bind_listener_fail_fast ["on_event_job_start"]
    [Event.JOB_START, Event.JOB_START]).2 [(Event.JOB_START, 0)] (by decide)

/-! ### Behavior of the `add_extension` loop, shared by several claims -/

theorem trackTeardown_endpoints (s : ExtState) (obj : Obj) :
    (trackTeardown s obj).endpoints = s.endpoints := by
  unfold trackTeardown
  by_cases h1 : obj.hasTeardown
  · by_cases h2 : (dictLookup s.teardown_objs obj.oid).isSome <;> simp [h1, h2]
  · simp [h1]

theorem extensionsAt_eq_of_endpoints {s t : ExtState} (h : s.endpoints = t.endpoints)
    (u : Nat) : extensionsAt s u = extensionsAt t u := by
  simp [extensionsAt, h]

theorem extensionsAt_set (s : ExtState) (u : Nat) (st' : EndpointStorage) (u' : Nat) :
    extensionsAt { s with endpoints := dictSet s.endpoints u st' } u' =
      if u' = u then st'.extensions else extensionsAt s u' := by
  by_cases h : u' = u
  · subst h
    simp [extensionsAt, dictLookup_dictSet_self]
  · simp [extensionsAt, dictLookup_dictSet_ne s.endpoints u u' st' h, h]

theorem extensionsAt_dispatch (t : ExtState) (u0 : Nat) (e0 : Extension) (u : Nat) :
    extensionsAt (dispatchExtensionRegistered t u0 e0) u = extensionsAt t u := rfl

theorem addExtLoop_cons_none (q : Plugin) (obj : Obj) (d : Bool) (v : Nat)
    (rest : List Nat) (s : ExtState) (found : Bool)
    (h : dictLookup s.endpoints v = none) :
    addExtLoop q obj d (v :: rest) s found = (s, some (.unknownEndpoint v), found) := by
  simp [addExtLoop, h]

theorem addExtLoop_cons_nomatch (q : Plugin) (obj : Obj) (d : Bool) (v : Nat)
    (rest : List Nat) (s : ExtState) (found : Bool) (st : EndpointStorage)
    (h : dictLookup s.endpoints v = some st)
    (hinc : includeTest st obj = false) :
    addExtLoop q obj d (v :: rest) s found = addExtLoop q obj d rest s found := by
  simp [addExtLoop, h, hinc]

theorem addExtLoop_cons_dup (q : Plugin) (obj : Obj) (d : Bool) (v : Nat)
    (rest : List Nat) (s : ExtState) (found : Bool) (st : EndpointStorage)
    (h : dictLookup s.endpoints v = some st)
    (hinc : includeTest st obj = true)
    (hdup : extObjId obj ∈ st.obj_ids) :
    addExtLoop q obj d (v :: rest) s found =
      (s, some (.duplicateExtension st.info.uuid (extObjId obj)), found) := by
  simp [addExtLoop, h, hinc, storageAddExtension, hdup]

theorem addExtLoop_cons_add (q : Plugin) (obj : Obj) (d : Bool) (v : Nat)
    (rest : List Nat) (s : ExtState) (found : Bool) (st : EndpointStorage)
    (h : dictLookup s.endpoints v = some st)
    (hinc : includeTest st obj = true)
    (hd : extObjId obj ∉ st.obj_ids) :
    ∃ st',
      storageAddExtension st
          { endpoint_uuid := v, obj := obj, plugin := q, from_plugin := !d } = .ok st'
      ∧ st'.extensions = st.extensions ++
          [{ endpoint_uuid := v, obj := obj, plugin := q, from_plugin := !d }]
      ∧ addExtLoop q obj d (v :: rest) s found =
          addExtLoop q obj d rest
            (dispatchExtensionRegistered
              { s with endpoints := dictSet s.endpoints v st' } v
              { endpoint_uuid := v, obj := obj, plugin := q, from_plugin := !d })
            true := by
  refine ⟨{ st with
      obj_ids := st.obj_ids ++ [extObjId obj]
      extensions := st.extensions ++
        [{ endpoint_uuid := v, obj := obj, plugin := q, from_plugin := !d }]
      extension_objects_list := st.extension_objects_list ++ [obj]
      extension_objects_dict := sdictSet st.extension_objects_dict obj.name obj },
    ?_, ?_, ?_⟩
  · simp [storageAddExtension, hd, extName]
  · simp
  · simp [addExtLoop, h, hinc, storageAddExtension, hd, extName]

/-- Every extension present after a run of the registration loop was
already present or is the freshly built record: owned by the calling
plugin, with `from_plugin = not _delayed_builtin`, wrapping the
registered object. -/
theorem addExtLoop_mem_extensions (q : Plugin) (obj : Obj) (d : Bool) (l : List Nat) :
    ∀ (s : ExtState) (found : Bool) (u : Nat) (ext : Extension),
      ext ∈ extensionsAt (addExtLoop q obj d l s found).1 u →
      ext ∈ extensionsAt s u ∨
        (ext.plugin = q ∧ ext.from_plugin = !d ∧ ext.obj = obj) := by
  induction l with
  | nil =>
      intro s found u ext h
      left
      simpa [addExtLoop] using h
  | cons v rest ih =>
      intro s found u ext h
      cases hlook : dictLookup s.endpoints v with
      | none =>
          rw [addExtLoop_cons_none q obj d v rest s found hlook] at h
          exact Or.inl h
      | some st =>
          by_cases hinc : includeTest st obj = true
          · by_cases hdup : extObjId obj ∈ st.obj_ids
            · rw [addExtLoop_cons_dup q obj d v rest s found st hlook hinc hdup] at h
              exact Or.inl h
            · obtain ⟨st', _, hexts, hstep⟩ :=
                addExtLoop_cons_add q obj d v rest s found st hlook hinc hdup
              rw [hstep] at h
              rcases ih _ true u ext h with hmem | hnew
              · rw [extensionsAt_dispatch, extensionsAt_set] at hmem
                by_cases hu : u = v
                · rw [if_pos hu, hexts] at hmem
                  rcases List.mem_append.mp hmem with hold | hnewm
                  · left
                    subst hu
                    simpa [extensionsAt, hlook] using hold
                  · right
                    have : ext =
                        { endpoint_uuid := v, obj := obj, plugin := q
                          from_plugin := !d } := by simpa using hnewm
                    subst this
                    exact ⟨rfl, rfl, rfl⟩
                · rw [if_neg hu] at hmem
                  exact Or.inl hmem
              · exact Or.inr hnew
          · have hincf : includeTest st obj = false := by
              cases hx : includeTest st obj with
              | false => rfl
              | true => exact absurd hx hinc
            rw [addExtLoop_cons_nomatch q obj d v rest s found st hlook hincf] at h
            exact ih s found u ext h

/-- Lifting `addExtLoop_mem_extensions` through `add_extension` itself. -/
theorem add_extension_mem_extensions (s : ExtState) (q : Plugin) (obj : Obj)
    (uuids : List Nat) (d : Bool) (u : Nat) (ext : Extension)
    (h : ext ∈ extensionsAt (add_extension s q obj uuids d).1 u) :
    ext ∈ extensionsAt s u ∨
      (ext.plugin = q ∧ ext.from_plugin = !d ∧ ext.obj = obj) := by
  rcases hloop : addExtLoop q obj d (find_object_endpoints obj uuids)
      (trackTeardown s obj) false with ⟨s2, err, found2⟩
  have hin : ext ∈ extensionsAt s2 u := by
    rw [add_extension, hloop] at h
    cases err with
    | some e => exact h
    | none =>
        cases found2 with
        | true => exact h
        | false => exact h
  have hs2 : ext ∈ extensionsAt (trackTeardown s obj) u ∨
      (ext.plugin = q ∧ ext.from_plugin = !d ∧ ext.obj = obj) := by
    apply addExtLoop_mem_extensions q obj d (find_object_endpoints obj uuids)
      (trackTeardown s obj) false u ext
    rw [hloop]
    exact hin
  rcases hs2 with hmem | hnew
  · left
    rwa [extensionsAt_eq_of_endpoints (trackTeardown_endpoints s obj) u] at hmem
  · exact Or.inr hnew

/-! ### C3: duplicate on one endpoint rejected, two endpoints fine -/

theorem add_extension_duplicate (s : ExtState) (q : Plugin) (obj : Obj) (e : Nat)
    (st : EndpointStorage)
    (hcand : find_object_endpoints obj [e] = [e])
    (h : dictLookup s.endpoints e = some st)
    (hinc : includeTest st obj = true)
    (hdup : extObjId obj ∈ st.obj_ids) :
    (add_extension s q obj [e] false).2 =
        some (.duplicateExtension st.info.uuid (extObjId obj))
    ∧ ∀ u, extensionsAt (add_extension s q obj [e] false).1 u = extensionsAt s u := by
  have h1 : dictLookup (trackTeardown s obj).endpoints e = some st := by
    rw [trackTeardown_endpoints]
    exact h
  have hloop := addExtLoop_cons_dup q obj false e [] (trackTeardown s obj) false st
    h1 hinc hdup
  constructor
  · simp [add_extension, hcand, hloop]
  · intro u
    have : (add_extension s q obj [e] false).1 = trackTeardown s obj := by
      simp [add_extension, hcand, hloop]
    rw [this]
    exact extensionsAt_eq_of_endpoints (trackTeardown_endpoints s obj) u

theorem add_extension_two_endpoints (s : ExtState) (q : Plugin) (obj : Obj)
    (e1 e2 : Nat) (st1 st2 : EndpointStorage)
    (hcand : find_object_endpoints obj [e1, e2] = [e1, e2])
    (hne : e1 ≠ e2)
    (h1 : dictLookup s.endpoints e1 = some st1)
    (h2 : dictLookup s.endpoints e2 = some st2)
    (hinc1 : includeTest st1 obj = true)
    (hinc2 : includeTest st2 obj = true)
    (hd1 : extObjId obj ∉ st1.obj_ids)
    (hd2 : extObjId obj ∉ st2.obj_ids) :
    (add_extension s q obj [e1, e2] false).2 = none
    ∧ extensionsAt (add_extension s q obj [e1, e2] false).1 e1 =
        extensionsAt s e1 ++
          [{ endpoint_uuid := e1, obj := obj, plugin := q, from_plugin := true }]
    ∧ extensionsAt (add_extension s q obj [e1, e2] false).1 e2 =
        extensionsAt s e2 ++
          [{ endpoint_uuid := e2, obj := obj, plugin := q, from_plugin := true }] := by
  have ht := trackTeardown_endpoints s obj
  have h1' : dictLookup (trackTeardown s obj).endpoints e1 = some st1 := by
    rw [ht]; exact h1
  obtain ⟨st1', hok1, hexts1, hstep1⟩ :=
    addExtLoop_cons_add q obj false e1 [e2] (trackTeardown s obj) false st1
      h1' hinc1 hd1
  set s1 := dispatchExtensionRegistered
      { trackTeardown s obj with
        endpoints := dictSet (trackTeardown s obj).endpoints e1 st1' } e1
      { endpoint_uuid := e1, obj := obj, plugin := q, from_plugin := !false }
    with hs1
  have h2' : dictLookup s1.endpoints e2 = some st2 := by
    rw [hs1]
    show dictLookup (dictSet (trackTeardown s obj).endpoints e1 st1') e2 = some st2
    rw [dictLookup_dictSet_ne _ _ _ _ (Ne.symm hne), ht]
    exact h2
  obtain ⟨st2', hok2, hexts2, hstep2⟩ :=
    addExtLoop_cons_add q obj false e2 [] s1 true st2 h2' hinc2 hd2
  have hloop : addExtLoop q obj false [e1, e2] (trackTeardown s obj) false =
      (dispatchExtensionRegistered
        { s1 with endpoints := dictSet s1.endpoints e2 st2' } e2
        { endpoint_uuid := e2, obj := obj, plugin := q, from_plugin := !false },
       none, true) := by
    rw [hstep1, hstep2]
    simp [addExtLoop]
  have hfin : add_extension s q obj [e1, e2] false =
      (dispatchExtensionRegistered
        { s1 with endpoints := dictSet s1.endpoints e2 st2' } e2
        { endpoint_uuid := e2, obj := obj, plugin := q, from_plugin := !false },
       none) := by
    simp only [add_extension, hcand]
    rw [hloop]
    rfl
  refine ⟨by rw [hfin], ?_, ?_⟩
  · rw [hfin]
    show extensionsAt (dispatchExtensionRegistered _ e2 _) e1 = _
    rw [extensionsAt_dispatch, extensionsAt_set, if_neg hne, hs1,
      extensionsAt_dispatch, extensionsAt_set, if_pos rfl, hexts1]
    simp [extensionsAt, h1]
  · rw [hfin]
    show extensionsAt (dispatchExtensionRegistered _ e2 _) e2 = _
    rw [extensionsAt_dispatch, extensionsAt_set, if_pos rfl, hexts2]
    simp [extensionsAt, h2]

/-- C3.  Registering the same object identity against the same endpoint a
second time raises the duplicate-extension `RuntimeError` and leaves that
endpoint's extension list (indeed every endpoint's list) unchanged, while
registering one object against two different endpoints that both accept
it succeeds and appends it to both endpoints' lists. -/
theorem duplicate_same_endpoint_two_endpoints_ok
    (sA : ExtState) (qA : Plugin) (objA : Obj) (eA : Nat) (stA : EndpointStorage)
    (hcandA : find_object_endpoints objA [eA] = [eA])
    (hA : dictLookup sA.endpoints eA = some stA)
    (hincA : includeTest stA objA = true)
    (hdupA : extObjId objA ∈ stA.obj_ids)
    (sB : ExtState) (qB : Plugin) (objB : Obj) (e1 e2 : Nat)
    (st1 st2 : EndpointStorage)
    (hcandB : find_object_endpoints objB [e1, e2] = [e1, e2])
    (hneB : e1 ≠ e2)
    (h1B : dictLookup sB.endpoints e1 = some st1)
    (h2B : dictLookup sB.endpoints e2 = some st2)
    (hinc1B : includeTest st1 objB = true)
    (hinc2B : includeTest st2 objB = true)
    (hd1B : extObjId objB ∉ st1.obj_ids)
    (hd2B : extObjId objB ∉ st2.obj_ids) :
    ((add_extension sA qA objA [eA] false).2 =
        some (.duplicateExtension stA.info.uuid (extObjId objA))
      ∧ ∀ u, extensionsAt (add_extension sA qA objA [eA] false).1 u =
          extensionsAt sA u)
    ∧ ((add_extension sB qB objB [e1, e2] false).2 = none
      ∧ extensionsAt (add_extension sB qB objB [e1, e2] false).1 e1 =
          extensionsAt sB e1 ++
            [{ endpoint_uuid := e1, obj := objB, plugin := qB, from_plugin := true }]
      ∧ extensionsAt (add_extension sB qB objB [e1, e2] false).1 e2 =
          extensionsAt sB e2 ++
            [{ endpoint_uuid := e2, obj := objB, plugin := qB, from_plugin := true }]) :=
  ⟨add_extension_duplicate sA qA objA eA stA hcandA hA hincA hdupA,
   add_extension_two_endpoints sB qB objB e1 e2 st1 st2 hcandB hneB h1B h2B
     hinc1B hinc2B hd1B hd2B⟩

def s3b : ExtState :=
  { initialExtState with
    endpoints := [(1, mkEndpointStorage (acceptAllEndpoint "E1" 1)),
                  (2, mkEndpointStorage (acceptAllEndpoint "E2" 2))] }

/-- C3 witness: re-registering the object already stored in `st9` on
endpoint 1 raises the duplicate error, while registering a fresh object
against two accept-all endpoints succeeds. -/
theorem duplicate_same_endpoint_two_endpoints_ok_witness :
    (add_extension s9 pluginA (mkObj 3 "x") [1] false).2 =
        some (.duplicateExtension st9.info.uuid (extObjId (mkObj 3 "x")))
    ∧ (add_extension s3b pluginA (mkObj 4 "y") [1, 2] false).2 = none := by
  have h := duplicate_same_endpoint_two_endpoints_ok
    s9 pluginA (mkObj 3 "x") 1 st9 (by decide) rfl (by decide) (by decide)
    s3b pluginA (mkObj 4 "y") 1 2
    (mkEndpointStorage (acceptAllEndpoint "E1" 1))
    (mkEndpointStorage (acceptAllEndpoint "E2" 2))
    (by decide) (by decide) rfl rfl (by decide) (by decide) (by decide) (by decide)
  exact ⟨h.1.1, h.2.1⟩

/-! ### C7: no match is a warning, unknown endpoint is an error -/

/-- Whether the endpoint registered under `u` (if any) accepts `obj`. -/
def matchesAt (s : ExtState) (u : Nat) (obj : Obj) : Bool :=
  match dictLookup s.endpoints u with
  | some st => includeTest st obj
  | none => false

theorem addExtLoop_all_nomatch (q : Plugin) (obj : Obj) (d : Bool) (l : List Nat) :
    ∀ (s : ExtState) (found : Bool),
      (∀ u ∈ l, (dictLookup s.endpoints u).isSome = true
        ∧ matchesAt s u obj = false) →
      addExtLoop q obj d l s found = (s, none, found) := by
  induction l with
  | nil => intro s found _; simp [addExtLoop]
  | cons v rest ih =>
      intro s found h
      obtain ⟨hsome, hm⟩ := h v (List.mem_cons_self v rest)
      cases hlook : dictLookup s.endpoints v with
      | none => rw [hlook] at hsome; simp at hsome
      | some st =>
          have hincf : includeTest st obj = false := by
            rw [matchesAt, hlook] at hm
            exact hm
          rw [addExtLoop_cons_nomatch q obj d v rest s found st hlook hincf]
          exact ih s found (fun u hu => h u (List.mem_cons_of_mem v hu))

theorem addExtLoop_hits_unknown (q : Plugin) (obj : Obj) (d : Bool) (l : List Nat) :
    ∀ (s : ExtState) (found : Bool),
      (∀ u ∈ l, matchesAt s u obj = false) →
      (∃ u ∈ l, dictLookup s.endpoints u = none) →
      ∃ u, u ∈ l ∧
        addExtLoop q obj d l s found = (s, some (.unknownEndpoint u), found) := by
  induction l with
  | nil =>
      intro s found _ hex
      simp at hex
  | cons v rest ih =>
      intro s found hnm hex
      cases hlook : dictLookup s.endpoints v with
      | none =>
          exact ⟨v, List.mem_cons_self v rest,
            addExtLoop_cons_none q obj d v rest s found hlook⟩
      | some st =>
          have hincf : includeTest st obj = false := by
            have := hnm v (List.mem_cons_self v rest)
            rw [matchesAt, hlook] at this
            exact this
          have hex' : ∃ u ∈ rest, dictLookup s.endpoints u = none := by
            obtain ⟨u, hu, hn⟩ := hex
            rcases List.mem_cons.mp hu with rfl | hu'
            · rw [hlook] at hn; exact absurd hn (by simp)
            · exact ⟨u, hu', hn⟩
          obtain ⟨u, hu, heq⟩ := ih s found
            (fun u hu => hnm u (List.mem_cons_of_mem v hu)) hex'
          refine ⟨u, List.mem_cons_of_mem v hu, ?_⟩
          rw [addExtLoop_cons_nomatch q obj d v rest s found st hlook hincf]
          exact heq

theorem matchesAt_trackTeardown (s : ExtState) (obj o2 : Obj) (u : Nat) :
    matchesAt (trackTeardown s o2) u obj = matchesAt s u obj := by
  simp [matchesAt, trackTeardown_endpoints]

/-- C7.  When no candidate endpoint's inclusion predicate accepts the
object: if every candidate uuid is registered, `add_extension` returns
normally and the failed match is observable only as one warning-log
increment; if instead some candidate uuid is unregistered, the call
raises the unknown-endpoint `ValueError`. -/
theorem add_extension_unmatched_or_unknown (s : ExtState) (p : Plugin) (obj : Obj)
    (uuids : List Nat)
    (hnomatch : ∀ u ∈ find_object_endpoints obj uuids, matchesAt s u obj = false) :
    ((∀ u ∈ find_object_endpoints obj uuids,
        (dictLookup s.endpoints u).isSome = true) →
      (add_extension s p obj uuids false).2 = none
      ∧ (add_extension s p obj uuids false).1.warnings =
          (trackTeardown s obj).warnings + 1)
    ∧ ((∃ u ∈ find_object_endpoints obj uuids, dictLookup s.endpoints u = none) →
      ∃ u, u ∈ find_object_endpoints obj uuids
        ∧ (add_extension s p obj uuids false).2 = some (.unknownEndpoint u)) := by
  constructor
  · intro hall
    have hloop := addExtLoop_all_nomatch p obj false (find_object_endpoints obj uuids)
      (trackTeardown s obj) false
      (by
        intro u hu
        constructor
        · rw [trackTeardown_endpoints]
          exact hall u hu
        · rw [matchesAt_trackTeardown]
          exact hnomatch u hu)
    constructor
    · simp [add_extension, hloop]
    · simp [add_extension, hloop]
  · intro hex
    obtain ⟨u, hu, heq⟩ := addExtLoop_hits_unknown p obj false
      (find_object_endpoints obj uuids) (trackTeardown s obj) false
      (by
        intro u hu
        rw [matchesAt_trackTeardown]
        exact hnomatch u hu)
      (by
        obtain ⟨u, hu, hn⟩ := hex
        refine ⟨u, hu, ?_⟩
        rw [trackTeardown_endpoints]
        exact hn)
    refine ⟨u, hu, ?_⟩
    simp [add_extension, heq]

def s7 : ExtState :=
  { initialExtState with
    endpoints :=
      [(1, mkEndpointStorage
        (attrs_post_init
          { mkEndpointFields "E1" 1 with instance_class := some 42 }))] }

/-- C7 witness: an object that is no instance of class 42 matches the one
registered endpoint's predicate nowhere; with the candidate set {1} fully
registered, `add_extension` returns no error and logs one warning. -/
theorem add_extension_unmatched_or_unknown_witness :
    (add_extension s7 pluginA (mkObj 8 "z") [1] false).2 = none
    ∧ (add_extension s7 pluginA (mkObj 8 "z") [1] false).1.warnings =
        (trackTeardown s7 (mkObj 8 "z")).warnings + 1 :=
  (add_extension_unmatched_or_unknown s7 pluginA (mkObj 8 "z") [1]
    (by decide)).1 (by decide)

/-! ### C5: builtin initialization runs exactly once and owns its extensions -/

theorem foldBuiltins_mem_extensions (p : Plugin) (lst : List (Obj × List Nat)) :
    ∀ (s : ExtState) (u : Nat) (ext : Extension),
      ext ∈ extensionsAt (foldBuiltins p lst s).1 u →
      ext ∈ extensionsAt s u ∨ (ext.plugin = p ∧ ext.from_plugin = false) := by
  induction lst with
  | nil =>
      intro s u ext h
      left
      simpa [foldBuiltins] using h
  | cons pr rest ih =>
      intro s u ext h
      obtain ⟨obj, uuids⟩ := pr
      rcases hadd : add_extension s p obj uuids true with ⟨s1, err⟩
      have hmem1 : ∀ e2 : Extension, e2 ∈ extensionsAt s1 u →
          e2 ∈ extensionsAt s u ∨ (e2.plugin = p ∧ e2.from_plugin = false) := by
        intro e2 he2
        have := add_extension_mem_extensions s p obj uuids true u e2
          (by rw [hadd]; exact he2)
        rcases this with hm | ⟨hp, hf, _⟩
        · exact Or.inl hm
        · right
          exact ⟨hp, by simpa using hf⟩
      cases err with
      | none =>
          have hfold : foldBuiltins p ((obj, uuids) :: rest) s =
              foldBuiltins p rest s1 := by
            simp [foldBuiltins, hadd]
          rw [hfold] at h
          rcases ih s1 u ext h with hm | hnew
          · exact hmem1 ext hm
          · exact Or.inr hnew
      | some e =>
          have hfold : foldBuiltins p ((obj, uuids) :: rest) s = (s1, some e) := by
            simp [foldBuiltins, hadd]
          rw [hfold] at h
          exact hmem1 ext h

/-- C5.  With a builtin plugin that passes the uuid guard and a registry
not yet initialized, a successful `init_builtin_extensions` run: returns
no error, flips the has-init flag, attributes every extension it adds to
the passed-in plugin with `from_plugin = False`, and makes any second
call raise; any extension a plugin later contributes through
`add_extension` is attributed to that plugin with `from_plugin = True`,
never to the builtin owner. -/
theorem init_builtins_once (s : ExtState) (p : Plugin)
    (hp : p.pack_uuid ≠ BUILTIN_PLUGIN_UUID)
    (hi : s.builtin_has_init = false)
    (hok : (foldBuiltins p s.builtin_extensions s).2 = none) :
    (init_builtin_extensions s p).2 = none
    ∧ (init_builtin_extensions s p).1.builtin_has_init = true
    ∧ (∀ u ext, ext ∈ extensionsAt (init_builtin_extensions s p).1 u →
        ext ∈ extensionsAt s u ∨ (ext.plugin = p ∧ ext.from_plugin = false))
    ∧ (∀ q, ((init_builtin_extensions (init_builtin_extensions s p).1 q).2).isSome)
    ∧ (∀ (t : ExtState) (q : Plugin) (obj : Obj) (uuids : List Nat) (u : Nat)
        (ext : Extension),
        ext ∈ extensionsAt (add_extension t q obj uuids false).1 u →
        ext ∈ extensionsAt t u ∨ (ext.plugin = q ∧ ext.from_plugin = true)) := by
  have hbeq : (p.pack_uuid == BUILTIN_PLUGIN_UUID) = false := by
    simp [hp]
  rcases hfold : foldBuiltins p s.builtin_extensions s with ⟨s1, err⟩
  rw [hfold] at hok
  obtain rfl : err = none := hok
  have hmain : init_builtin_extensions s p =
      ({ s1 with builtin_has_init := true }, none) := by
    simp [init_builtin_extensions, hbeq, hi, hfold]
  refine ⟨by rw [hmain], by rw [hmain], ?_, ?_, ?_⟩
  · intro u ext h
    rw [hmain] at h
    have h1 : ext ∈ extensionsAt s1 u := h
    apply foldBuiltins_mem_extensions p s.builtin_extensions s u ext
    rw [hfold]
    exact h1
  · intro q
    rw [hmain]
    cases hbq : q.pack_uuid == BUILTIN_PLUGIN_UUID <;>
      simp [init_builtin_extensions, hbq]
  · intro t q obj uuids u ext h
    have := add_extension_mem_extensions t q obj uuids false u ext h
    rcases this with hm | ⟨hq, hf, _⟩
    · exact Or.inl hm
    · right
      exact ⟨hq, by simpa using hf⟩

def objB5 : Obj := mkObj 21 "builtin-ext"

def s5 : ExtState :=
  { initialExtState with
    endpoints := [(1, mkEndpointStorage (acceptAllEndpoint "E1" 1))]
    builtin_extensions := [(objB5, [1])] }

def plugin5 : Plugin := { pid := 9, pack_uuid := 77 }

/-- C5 witness: a concrete registry with one deferred builtin extension
initializes once without error. -/
theorem init_builtins_once_witness :
    (init_builtin_extensions s5 plugin5).2 = none
    ∧ (init_builtin_extensions s5 plugin5).1.builtin_has_init = true := by
  have h := init_builtins_once s5 plugin5 (by decide) rfl (by decide)
  exact ⟨h.1, h.2.1⟩

end Ubu
